import Mathlib

/-!
# pr-manager: a verification development

A shallow embedding of the `pr-manager` command line tool (Go): the API client
of `pkg/github/client.go` and the command handlers of `cmd/*.go`.

Modelling conventions.

* Go `string` values that the program only passes around, compares and formats
  are `String` (a sequence of runes). Where the program looks at the byte
  representation (`len(title)`, `title[:57]` in `cmd/list.go`) the string is
  viewed through `goBytes`, its UTF-8 encoding, a list of byte values.
* Go `int` is `Int`; no arithmetic is done on it, it is only formatted.
* A Go `error` is `Option Error` (`nil` is `none`), a `(T, error)` result is
  `Except Error T`.
* The remote host (the go-github library and the network behind it) is an
  oracle `Host`; every call made through it is appended to a request log,
  passed explicitly.
* Terminal effects are a `World`: the request log, the output events written so
  far, and the runes still unread on standard input.
-/

namespace PrManager

/-! ## Text helpers: formatting verbs and the UTF-8 byte view -/

/-- The verb `%d` applied to a Go `int`: its decimal numeral, with a leading
minus sign when negative. -/
def fmtInt (n : Int) : String := toString n

/-- The verb `%v` applied to a Go `bool`. -/
def fmtBool (b : Bool) : String := if b then "true" else "false"

/-- UTF-8 encoding of one rune, as `utf8.EncodeRune` lays it out. A `Char` is
never a surrogate and never exceeds the largest rune, so the replacement case
of the Go routine cannot occur. -/
def utf8EncodeRune (c : Char) : List Nat :=
  let i := c.toNat
  if i ≤ 0x7F then [i]
  else if i ≤ 0x7FF then [0xC0 + i / 64, 0x80 + i % 64]
  else if i ≤ 0xFFFF then [0xE0 + i / 4096, 0x80 + i / 64 % 64, 0x80 + i % 64]
  else [0xF0 + i / 262144, 0x80 + i / 4096 % 64, 0x80 + i / 64 % 64, 0x80 + i % 64]

/-- The bytes of a Go string holding the given text. -/
def goBytes (s : String) : List Nat := s.data.flatMap utf8EncodeRune

/-! ## Errors -/

/-- An error value returned by the host library; only its `Error()` text is
observable. -/
structure HostError where
  msg : String
deriving DecidableEq

/-- An error value built by this program with `fmt.Errorf`: its text and the
error it wraps through `%w`, if any. -/
structure Error where
  msg : String
  wrapped : Option HostError
deriving DecidableEq

/-- The call `fmt.Errorf(pre + "%w", err)`, where `pre` is the already formatted
text in front of the final `%w` verb. -/
def errorfW (pre : String) (err : HostError) : Error :=
  { msg := pre ++ err.msg, wrapped := some err }

/-! ## The host library's types (go-github), fields used by this program -/

/-- A point in time as the host reports it, broken into calendar fields. -/
structure Timestamp where
  year : Nat
  month : Nat
  day : Nat
  hour : Nat
  minute : Nat
  second : Nat
deriving DecidableEq

/-- The zero `Timestamp`, which the getters return for an absent field. -/
def Timestamp.zero : Timestamp := ⟨1, 1, 1, 0, 0, 0⟩

/-- Left-pads a numeral with zeros to a minimum width. -/
def padZero (width n : Nat) : String :=
  let s := toString n
  String.mk (List.replicate (width - s.length) '0') ++ s

/-- The call `t.Format("2006-01-02 15:04:05")`. -/
def Timestamp.Format (t : Timestamp) : String :=
  padZero 4 t.year ++ "-" ++ padZero 2 t.month ++ "-" ++ padZero 2 t.day ++ " " ++
    padZero 2 t.hour ++ ":" ++ padZero 2 t.minute ++ ":" ++ padZero 2 t.second

/-- The type `github.User`. -/
structure GhUser where
  Login : Option String
deriving DecidableEq

/-- The type `github.PullRequestBranch`. -/
structure GhBranch where
  Ref : Option String
deriving DecidableEq

/-- The type `github.PullRequest`: every field is a pointer on the Go side and
may be absent. -/
structure GhPullRequest where
  Number : Option Int
  Title : Option String
  Body : Option String
  User : Option GhUser
  State : Option String
  CreatedAt : Option Timestamp
  UpdatedAt : Option Timestamp
  HTMLURL : Option String
  Base : Option GhBranch
  Head : Option GhBranch
  Mergeable : Option Bool
  MergeableState : Option String
  Draft : Option Bool
  Comments : Option Int
  Commits : Option Int
  Additions : Option Int
  Deletions : Option Int
  ChangedFiles : Option Int
deriving DecidableEq

/-- The type `github.PullRequestListOptions`, with the fields this program
sets; the others keep their zero value. `SortField` is the Go field `Sort`. -/
structure PullRequestListOptions where
  State : String
  SortField : String
  Direction : String
  PerPage : Int
deriving DecidableEq

/-- The type `github.IssueComment`, with the field this program sets. -/
structure IssueComment where
  Body : String
deriving DecidableEq

/-- The type `github.PullRequestReviewRequest`, with the fields this program
sets. -/
structure PullRequestReviewRequest where
  Body : String
  Event : String
deriving DecidableEq

/-- The type `github.PullRequestOptions`, with the fields this program sets. -/
structure PullRequestOptions where
  CommitMessage : String
  MergeMethod : String
deriving DecidableEq

/-- The type `github.PullRequestMergeResult`. -/
structure PullRequestMergeResult where
  Merged : Option Bool
  Message : Option String
deriving DecidableEq

/-- Getter `GetMerged`: `false` when absent. -/
def PullRequestMergeResult.GetMerged (r : PullRequestMergeResult) : Bool := r.Merged.getD false

/-- Getter `GetMessage`: empty when absent. -/
def PullRequestMergeResult.GetMessage (r : PullRequestMergeResult) : String := r.Message.getD ""

/-- One call made to the host, with the arguments it was made with. -/
inductive Request where
  | pullsList (owner repo : String) (opts : PullRequestListOptions)
  | pullsGet (owner repo : String) (number : Int)
  | issuesCreateComment (owner repo : String) (number : Int) (comment : IssueComment)
  | pullsCreateReview (owner repo : String) (number : Int) (review : PullRequestReviewRequest)
  | pullsMerge (owner repo : String) (number : Int) (commitMessage : String)
      (opts : PullRequestOptions)
deriving DecidableEq

/-- The host as an oracle: what each service call answers. -/
structure Host where
  pullsList : String → String → PullRequestListOptions → Except HostError (List GhPullRequest)
  pullsGet : String → String → Int → Except HostError GhPullRequest
  issuesCreateComment : String → String → Int → IssueComment → Except HostError Unit
  pullsCreateReview : String → String → Int → PullRequestReviewRequest → Except HostError Unit
  pullsMerge : String → String → Int → String → PullRequestOptions →
    Except HostError PullRequestMergeResult

/-- The library call `client.PullRequests.List`: the request is recorded and the
host answers. -/
def Host.PullRequestsList (h : Host) (owner repo : String) (opts : PullRequestListOptions)
    (log : List Request) : Except HostError (List GhPullRequest) × List Request :=
  (h.pullsList owner repo opts, log ++ [Request.pullsList owner repo opts])

/-- The library call `client.PullRequests.Get`. -/
def Host.PullRequestsGet (h : Host) (owner repo : String) (number : Int)
    (log : List Request) : Except HostError GhPullRequest × List Request :=
  (h.pullsGet owner repo number, log ++ [Request.pullsGet owner repo number])

/-- The library call `client.Issues.CreateComment`. -/
def Host.IssuesCreateComment (h : Host) (owner repo : String) (number : Int)
    (comment : IssueComment) (log : List Request) : Except HostError Unit × List Request :=
  (h.issuesCreateComment owner repo number comment,
    log ++ [Request.issuesCreateComment owner repo number comment])

/-- The library call `client.PullRequests.CreateReview`. -/
def Host.PullRequestsCreateReview (h : Host) (owner repo : String) (number : Int)
    (review : PullRequestReviewRequest) (log : List Request) :
    Except HostError Unit × List Request :=
  (h.pullsCreateReview owner repo number review,
    log ++ [Request.pullsCreateReview owner repo number review])

/-- The library call `client.PullRequests.Merge`. -/
def Host.PullRequestsMerge (h : Host) (owner repo : String) (number : Int)
    (commitMessage : String) (opts : PullRequestOptions) (log : List Request) :
    Except HostError PullRequestMergeResult × List Request :=
  (h.pullsMerge owner repo number commitMessage opts,
    log ++ [Request.pullsMerge owner repo number commitMessage opts])

/-- Getter `GetNumber`. -/
def GhPullRequest.GetNumber (pr : GhPullRequest) : Int := pr.Number.getD 0

/-- Getter `GetTitle`. -/
def GhPullRequest.GetTitle (pr : GhPullRequest) : String := pr.Title.getD ""

/-- Getter `GetBody`. -/
def GhPullRequest.GetBody (pr : GhPullRequest) : String := pr.Body.getD ""

/-- Getter chain `GetUser().GetLogin()`: empty when either link is absent. -/
def GhPullRequest.GetUserLogin (pr : GhPullRequest) : String :=
  match pr.User with
  | some u => u.Login.getD ""
  | none => ""

/-- Getter `GetState`. -/
def GhPullRequest.GetState (pr : GhPullRequest) : String := pr.State.getD ""

/-- Getter `GetCreatedAt`. -/
def GhPullRequest.GetCreatedAt (pr : GhPullRequest) : Timestamp := pr.CreatedAt.getD Timestamp.zero

/-- Getter `GetUpdatedAt`. -/
def GhPullRequest.GetUpdatedAt (pr : GhPullRequest) : Timestamp := pr.UpdatedAt.getD Timestamp.zero

/-- Getter `GetHTMLURL`. -/
def GhPullRequest.GetHTMLURL (pr : GhPullRequest) : String := pr.HTMLURL.getD ""

/-- Getter chain `GetBase().GetRef()`. -/
def GhPullRequest.GetBaseRef (pr : GhPullRequest) : String :=
  match pr.Base with
  | some b => b.Ref.getD ""
  | none => ""

/-- Getter chain `GetHead().GetRef()`. -/
def GhPullRequest.GetHeadRef (pr : GhPullRequest) : String :=
  match pr.Head with
  | some b => b.Ref.getD ""
  | none => ""

/-- Getter `GetMergeableState`. -/
def GhPullRequest.GetMergeableState (pr : GhPullRequest) : String := pr.MergeableState.getD ""

/-- Getter `GetDraft`. -/
def GhPullRequest.GetDraft (pr : GhPullRequest) : Bool := pr.Draft.getD false

/-- Getter `GetComments`. -/
def GhPullRequest.GetComments (pr : GhPullRequest) : Int := pr.Comments.getD 0

/-- Getter `GetCommits`. -/
def GhPullRequest.GetCommits (pr : GhPullRequest) : Int := pr.Commits.getD 0

/-- Getter `GetAdditions`. -/
def GhPullRequest.GetAdditions (pr : GhPullRequest) : Int := pr.Additions.getD 0

/-- Getter `GetDeletions`. -/
def GhPullRequest.GetDeletions (pr : GhPullRequest) : Int := pr.Deletions.getD 0

/-- Getter `GetChangedFiles`. -/
def GhPullRequest.GetChangedFiles (pr : GhPullRequest) : Int := pr.ChangedFiles.getD 0

/-! ## `pkg/github/client.go` -/

namespace github

/-- The process environment: the value of each variable that is set. -/
abbrev Env := String → Option String

/-- The call `os.Getenv(key)`: empty when the variable is not set. -/
def Getenv (env : Env) (key : String) : String := (env key).getD ""

/-- Type `Client`: the credential the HTTP transport was built with, and the
host that the wrapped library client talks to. -/
structure Client where
  token : String
  host : Host

/-- Type `PullRequest`, the simplified pull request. -/
structure PullRequest where
  Number : Int
  Title : String
  Author : String
  State : String
  CreatedAt : String
  UpdatedAt : String
  URL : String
  Base : String
  Head : String
  Mergeable : Option Bool
  MergeableState : String
  Draft : Bool
  Body : String
  Comments : Int
  Commits : Int
  Additions : Int
  Deletions : Int
  ChangedFiles : Int
deriving DecidableEq

/-- Function `NewClient`. -/
def NewClient (env : Env) (host : Host) (token : String) : Except Error Client :=
  let token := if token = "" then Getenv env "GITHUB_TOKEN" else token
  if token = "" then
    .error { msg := "GitHub token is required. Set GITHUB_TOKEN environment variable or pass token parameter",
             wrapped := none }
  else
    .ok { token := token, host := host }

/-- The element built in the loop body of `ListPullRequests`; the fields the
literal leaves out keep their zero value. -/
def listEntry (pr : GhPullRequest) : PullRequest :=
  { Number := pr.GetNumber
    Title := pr.GetTitle
    Author := pr.GetUserLogin
    State := pr.GetState
    CreatedAt := pr.GetCreatedAt.Format
    UpdatedAt := pr.GetUpdatedAt.Format
    URL := pr.GetHTMLURL
    Base := ""
    Head := ""
    Mergeable := none
    MergeableState := pr.GetMergeableState
    Draft := pr.GetDraft
    Body := ""
    Comments := 0
    Commits := 0
    Additions := 0
    Deletions := 0
    ChangedFiles := 0 }

/-- The loop `for _, pr := range pulls { prs = append(prs, ...) }`. -/
def appendEntries (prs : List PullRequest) : List GhPullRequest → List PullRequest
  | [] => prs
  | pr :: pulls => appendEntries (prs ++ [listEntry pr]) pulls

/-- Method `Client.ListPullRequests`. -/
def Client.ListPullRequests (c : Client) (owner repo state : String) (limit : Int)
    (log : List Request) : Except Error (List PullRequest) × List Request :=
  let opts : PullRequestListOptions :=
    { State := state, SortField := "created", Direction := "desc", PerPage := limit }
  let r := c.host.PullRequestsList owner repo opts log
  match r.1 with
  | .error err => (.error (errorfW "error listing pull requests: " err), r.2)
  | .ok pulls => (.ok (appendEntries [] pulls), r.2)

/-- Method `Client.GetPullRequest`. -/
def Client.GetPullRequest (c : Client) (owner repo : String) (number : Int)
    (log : List Request) : Except Error PullRequest × List Request :=
  let r := c.host.PullRequestsGet owner repo number log
  match r.1 with
  | .error err =>
    (.error (errorfW ("error getting pull request #" ++ fmtInt number ++ ": ") err), r.2)
  | .ok pr =>
    (.ok { Number := pr.GetNumber
           Title := pr.GetTitle
           Body := pr.GetBody
           Author := pr.GetUserLogin
           State := pr.GetState
           CreatedAt := pr.GetCreatedAt.Format
           UpdatedAt := pr.GetUpdatedAt.Format
           URL := pr.GetHTMLURL
           Base := pr.GetBaseRef
           Head := pr.GetHeadRef
           Mergeable := pr.Mergeable
           MergeableState := pr.GetMergeableState
           Draft := pr.GetDraft
           Comments := pr.GetComments
           Commits := pr.GetCommits
           Additions := pr.GetAdditions
           Deletions := pr.GetDeletions
           ChangedFiles := pr.GetChangedFiles }, r.2)

/-- Method `Client.AddComment`. -/
def Client.AddComment (c : Client) (owner repo : String) (number : Int) (comment : String)
    (log : List Request) : Option Error × List Request :=
  let issueComment : IssueComment := { Body := comment }
  let r := c.host.IssuesCreateComment owner repo number issueComment log
  match r.1 with
  | .error err =>
    (some (errorfW ("error adding comment to PR #" ++ fmtInt number ++ ": ") err), r.2)
  | .ok _ => (none, r.2)

/-- Method `Client.ApprovePullRequest`. -/
def Client.ApprovePullRequest (c : Client) (owner repo : String) (number : Int)
    (comment : String) (log : List Request) : Option Error × List Request :=
  let comment := if comment = "" then "Approved via pr-manager CLI" else comment
  let review : PullRequestReviewRequest := { Body := comment, Event := "APPROVE" }
  let r := c.host.PullRequestsCreateReview owner repo number review log
  match r.1 with
  | .error err => (some (errorfW ("error approving PR #" ++ fmtInt number ++ ": ") err), r.2)
  | .ok _ => (none, r.2)

/-- Method `Client.RequestChanges`. -/
def Client.RequestChanges (c : Client) (owner repo : String) (number : Int)
    (comment : String) (log : List Request) : Option Error × List Request :=
  let review : PullRequestReviewRequest := { Body := comment, Event := "REQUEST_CHANGES" }
  let r := c.host.PullRequestsCreateReview owner repo number review log
  match r.1 with
  | .error err =>
    (some (errorfW ("error requesting changes on PR #" ++ fmtInt number ++ ": ") err), r.2)
  | .ok _ => (none, r.2)

/-- Method `Client.MergePullRequest`. -/
def Client.MergePullRequest (c : Client) (owner repo : String) (number : Int)
    (commitMessage mergeMethod : String) (log : List Request) : Option Error × List Request :=
  let opts : PullRequestOptions :=
    { CommitMessage := if commitMessage ≠ "" then commitMessage else "",
      MergeMethod := mergeMethod }
  let r := c.host.PullRequestsMerge owner repo number "" opts log
  match r.1 with
  | .error err => (some (errorfW ("error merging PR #" ++ fmtInt number ++ ": ") err), r.2)
  | .ok result =>
    if !result.GetMerged then
      (some { msg := "failed to merge PR #" ++ fmtInt number ++ ": " ++ result.GetMessage,
              wrapped := none }, r.2)
    else
      (none, r.2)

end github

/-! ## The standard library's line scanner (`fmt.Scanln`), as `cmd/merge.go` uses it -/

namespace fmt

/-- The table `space` of `fmt/scan.go`: the ranges of white space runes. -/
def space : List (Nat × Nat) :=
  [(0x0009, 0x000d), (0x0020, 0x0020), (0x0085, 0x0085), (0x00a0, 0x00a0), (0x1680, 0x1680),
   (0x2000, 0x200a), (0x2028, 0x2029), (0x202f, 0x202f), (0x205f, 0x205f), (0x3000, 0x3000)]

/-- The loop of `isSpace` over the table. -/
def inRanges (rx : Nat) : List (Nat × Nat) → Bool
  | [] => false
  | rng :: rest =>
    if rx < rng.1 then false
    else if rx ≤ rng.2 then true
    else inRanges rx rest

/-- Function `isSpace`. -/
def isSpace (r : Char) : Bool :=
  if r.toNat ≥ 65536 then false else inRanges r.toNat space

/-- Function `notSpace`. -/
def notSpace (r : Char) : Bool := !isSpace r

/-- The call `s.peek("\n")`: whether the next rune is a newline, consuming nothing. -/
def peekNewline : List Char → Bool
  | [] => false
  | r :: _ => r = '\n'

/-- Method `ss.SkipSpace` with `nlIsSpace = false`, on the runes still unread:
the error it raises, if any, and the runes left. -/
def SkipSpace : List Char → Option String × List Char
  | [] => (none, [])
  | r :: rs =>
    if r = '\r' ∧ peekNewline rs = true then SkipSpace rs
    else if r = '\n' then (some "unexpected newline", rs)
    else if !isSpace r then (none, r :: rs)
    else SkipSpace rs

/-- The read loop of `ss.token` with the predicate `notSpace`: the runes
collected and the runes left. -/
def tokenLoop : List Char → List Char × List Char
  | [] => ([], [])
  | r :: rs =>
    if !notSpace r then ([], r :: rs)
    else ((tokenLoop rs).1.cons r, (tokenLoop rs).2)

/-- The closing loop of `ss.doScan` with `nlIsEnd = true`: the rest of the line
must be blank. -/
def expectNewline : List Char → Option String × List Char
  | [] => (none, [])
  | r :: rs =>
    if r = '\n' then (none, rs)
    else if !isSpace r then (some "expected newline", rs)
    else expectNewline rs

/-- The call `fmt.Scanln(&response)` for a `string` operand, after `doScan` and
`convertString` of `fmt/scan.go`: skip blanks, require some input, read the next
word, then require the rest of the line to be blank. Gives the value of
`response` afterwards, the error returned, and the runes left on the input. An
error raised before the word is stored leaves `response` as it was. -/
def Scanln (stdin : List Char) (response : String) : String × Option String × List Char :=
  match SkipSpace stdin with
  | (some e, rest) => (response, some e, rest)
  | (none, []) => (response, some "EOF", [])
  | (none, r :: rs) =>
    match SkipSpace (r :: rs) with
    | (some e, rest) => (response, some e, rest)
    | (none, rest) =>
      let tok := tokenLoop rest
      let fin := expectNewline tok.2
      (String.mk tok.1, fin.1, fin.2)

end fmt

/-! ## `cmd/*.go` -/

namespace cmd

/-- The display attributes of the `color` package that the commands use. -/
inductive Attribute where
  | FgGreen | FgYellow | FgCyan | Bold | Faint
deriving DecidableEq

/-- One write to the terminal. -/
inductive Out where
  /-- Text written to standard output by `fmt.Printf` or `fmt.Println`. -/
  | stdout (s : String)
  /-- Text written through a `color.Color` value with the given attributes. -/
  | colored (attrs : List Attribute) (s : String)
  /-- Bytes written into the `tabwriter` of the list command. -/
  | tabwrite (b : List Nat)
  /-- The call `w.Flush()` on that `tabwriter`. -/
  | tabflush
deriving DecidableEq

/-- What a command handler acts on: the requests made to the host so far, the
terminal writes so far, and the runes still unread on standard input. -/
structure World where
  log : List Request
  out : List Out
  stdin : List Char
deriving DecidableEq

/-- The helper behind `color.Yellow` and `color.Green`: the formatted text gets
a newline appended, since none of the formats used here ends in one. -/
def colorPrint (p : Attribute) (text : String) : Out := Out.colored [p] (text ++ "\n")

/-- Flags of the `merge` command. -/
structure MergeFlags where
  mergeOwner : String
  mergeRepo : String
  mergePR : Int
  mergeMethod : String
  mergeMessage : String
  mergeConfirm : Bool

/-- The part of `mergeCmd.RunE` after the confirmation prompt. -/
def mergeCmd.doMerge (client : github.Client) (f : MergeFlags) (w : World) :
    Option Error × World :=
  let r := client.MergePullRequest f.mergeOwner f.mergeRepo f.mergePR f.mergeMessage
    f.mergeMethod w.log
  match r.1 with
  | some err => (some err, { w with log := r.2 })
  | none =>
    (none, { w with
      log := r.2
      out := w.out ++ [colorPrint .FgGreen
        ("✓ PR #" ++ fmtInt f.mergePR ++ " merged successfully using " ++ f.mergeMethod ++
          " method!")] })

/-- Handler `mergeCmd.RunE`. -/
def mergeCmd.RunE (client : github.Client) (f : MergeFlags) (w : World) :
    Option Error × World :=
  if !f.mergeConfirm then
    let w1 : World := { w with
      out := w.out ++ [Out.stdout
        ("Are you sure you want to merge PR #" ++ fmtInt f.mergePR ++ "? [y/N]: ")] }
    let scan := fmt.Scanln w1.stdin ""
    let response := scan.1
    let w2 : World := { w1 with stdin := scan.2.2 }
    if response ≠ "y" ∧ response ≠ "Y" then
      (none, { w2 with out := w2.out ++ [colorPrint .FgYellow "Merge cancelled"] })
    else
      mergeCmd.doMerge client f w2
  else
    mergeCmd.doMerge client f w

/-- The title truncation of the list loop, on the bytes of the title:
`if len(title) > 60 { title = title[:57] + "..." }`. -/
def truncateTitle (title : List Nat) : List Nat :=
  if title.length > 60 then title.take 57 ++ goBytes "..." else title

/-- The bytes that one pass of the list loop writes into the `tabwriter`:
`fmt.Fprintf(w, "%d\t%s\t%s\t%s %s\t%s\t%s\n", ...)`. -/
def rowBytes (pr : github.PullRequest) : List Nat :=
  let draftStatus := if pr.Draft then "✓" else ""
  let stateIcon := if pr.State ≠ "open" then "🔴" else "🟢"
  let title := truncateTitle (goBytes pr.Title)
  goBytes (fmtInt pr.Number ++ "\t") ++ title ++
    goBytes ("\t" ++ pr.Author ++ "\t" ++ stateIcon ++ " " ++ pr.State ++ "\t" ++ draftStatus ++
      "\t" ++ pr.UpdatedAt ++ "\n")

/-- The loop `for _, pr := range prs` of the list command. -/
def listRows (out : List Out) : List github.PullRequest → List Out
  | [] => out
  | pr :: prs => listRows (out ++ [Out.tabwrite (rowBytes pr)]) prs

/-- Flags of the `list` command. -/
structure ListFlags where
  listOwner : String
  listRepo : String
  listState : String
  listLimit : Int

/-- Handler `listCmd.RunE`. -/
def listCmd.RunE (client : github.Client) (f : ListFlags) (w : World) : Option Error × World :=
  let r := client.ListPullRequests f.listOwner f.listRepo f.listState f.listLimit w.log
  match r.1 with
  | .error err => (some err, { w with log := r.2 })
  | .ok prs =>
    if prs.length = 0 then
      (none, { w with
        log := r.2
        out := w.out ++ [colorPrint .FgYellow
          ("No " ++ f.listState ++ " pull requests found in " ++ f.listOwner ++ "/" ++
            f.listRepo)] })
    else
      let out := w.out ++ [Out.colored [.FgCyan, .Bold]
        ("\nPull Requests in " ++ f.listOwner ++ "/" ++ f.listRepo ++ " (" ++ f.listState ++
          ")\n\n")]
      let out := out ++ [Out.tabwrite (goBytes "#\tTitle\tAuthor\tState\tDraft\tUpdated\n")]
      let out := out ++ [Out.tabwrite (goBytes "─\t─────\t──────\t─────\t─────\t───────\n")]
      let out := listRows out prs
      let out := out ++ [Out.tabflush]
      let out := out ++ [Out.colored [.Faint]
        ("\nTotal: " ++ fmtInt prs.length ++ " pull request(s)\n\n")]
      (none, { w with log := r.2, out := out })

/-- Flags of the `show` command. -/
structure ShowFlags where
  showOwner : String
  showRepo : String
  showPR : Int

/-- The text of the mergeable field in the show command:
`mergeableStr := "unknown"; if pr.Mergeable != nil { mergeableStr = fmt.Sprintf("%v", *pr.Mergeable) }`. -/
def mergeableStr (mergeable : Option Bool) : String :=
  match mergeable with
  | some b => fmtBool b
  | none => "unknown"

/-- Handler `showCmd.RunE`. -/
def showCmd.RunE (client : github.Client) (f : ShowFlags) (w : World) : Option Error × World :=
  let r := client.GetPullRequest f.showOwner f.showRepo f.showPR w.log
  match r.1 with
  | .error err => (some err, { w with log := r.2 })
  | .ok pr =>
    let out := w.out ++ [Out.colored [.FgCyan, .Bold] ("\n═══ PR #" ++ fmtInt pr.Number ++ " ═══\n\n")]
    let out := out ++ [Out.stdout ("Title:    " ++ pr.Title ++ "\n")]
    let out := out ++ [Out.stdout ("Author:   " ++ pr.Author ++ "\n")]
    let out := out ++ [Out.stdout ("State:    " ++ pr.State ++ "\n")]
    let out := out ++ [Out.stdout ("Draft:    " ++ fmtBool pr.Draft ++ "\n")]
    let out := out ++ [Out.stdout ("Base:     " ++ pr.Base ++ " ← Head: " ++ pr.Head ++ "\n")]
    let out := out ++ [Out.stdout ("Created:  " ++ pr.CreatedAt ++ "\n")]
    let out := out ++ [Out.stdout ("Updated:  " ++ pr.UpdatedAt ++ "\n")]
    let out := out ++ [Out.stdout ("URL:      " ++ pr.URL ++ "\n")]
    let out := out ++ [Out.colored [.FgYellow, .Bold] "\nStats:\n"]
    let out := out ++ [Out.stdout ("  • Comments:      " ++ fmtInt pr.Comments ++ "\n")]
    let out := out ++ [Out.stdout ("  • Commits:       " ++ fmtInt pr.Commits ++ "\n")]
    let out := out ++ [Out.stdout ("  • Files changed: " ++ fmtInt pr.ChangedFiles ++ "\n")]
    let out := out ++ [Out.stdout
      ("  • +" ++ fmtInt pr.Additions ++ " / -" ++ fmtInt pr.Deletions ++ " lines\n")]
    let out := out ++ [Out.stdout
      ("\nMergeable: " ++ mergeableStr pr.Mergeable ++ " (" ++ pr.MergeableState ++ ")\n")]
    let out :=
      if pr.Body ≠ "" then
        out ++ [Out.colored [.FgGreen, .Bold] "\nDescription:\n", Out.stdout (pr.Body ++ "\n")]
      else out
    let out := out ++ [Out.stdout "\n"]
    (none, { w with log := r.2, out := out })

end cmd

/-! ## Notions used to state the properties, and sample data -/

/-- The first line of an input: the runes in front of the first newline. -/
def firstLine (stdin : List Char) : List Char := stdin.takeWhile (fun r => r ≠ '\n')

/-- The first word of a line: leading white space dropped, then the runes up
to the next white space. -/
def firstWord (line : List Char) : List Char :=
  (line.dropWhile fmt.isSpace).takeWhile fmt.notSpace

/-- A host that gives the same answer to every call of a kind. -/
def constHost (list : Except HostError (List GhPullRequest))
    (get : Except HostError GhPullRequest) (ack : Except HostError Unit)
    (merge : Except HostError PullRequestMergeResult) : Host where
  pullsList := fun _ _ _ => list
  pullsGet := fun _ _ _ => get
  issuesCreateComment := fun _ _ _ _ => ack
  pullsCreateReview := fun _ _ _ _ => ack
  pullsMerge := fun _ _ _ _ _ => merge

/-- A pull request as a host may report it: open, not a draft, by `alice`. -/
def samplePull (number : Int) (title : String) (mergeable : Option Bool) : GhPullRequest where
  Number := some number
  Title := some title
  Body := none
  User := some ⟨some "alice"⟩
  State := some "open"
  CreatedAt := some ⟨2024, 5, 17, 9, 30, 0⟩
  UpdatedAt := some ⟨2024, 5, 18, 16, 4, 59⟩
  HTMLURL := some "https://example.test/octo/demo/pull/1"
  Base := some ⟨some "main"⟩
  Head := some ⟨some "feature"⟩
  Mergeable := mergeable
  MergeableState := some "clean"
  Draft := some false
  Comments := some 2
  Commits := some 3
  Additions := some 10
  Deletions := some 4
  ChangedFiles := some 1

/-- A host on which every call succeeds: no pull requests listed, merges done. -/
def demoHost : Host :=
  constHost (.ok []) (.ok (samplePull 7 "Add cache" none)) (.ok ()) (.ok ⟨some true, none⟩)

/-- A host on which every call fails with the same error. -/
def failingHost : Host :=
  constHost (.error ⟨"unexpected EOF"⟩) (.error ⟨"unexpected EOF"⟩) (.error ⟨"unexpected EOF"⟩) (.error ⟨"unexpected EOF"⟩)

/-- A host that answers the list call with three pull requests, whatever page
size was asked for. -/
def threePullHost : Host :=
  constHost (.ok [samplePull 3 "Third" none, samplePull 2 "Second" none, samplePull 1 "First" none])
    (.error ⟨"unexpected EOF"⟩) (.ok ()) (.ok ⟨some true, none⟩)

/-- A host that accepts the merge request and reports the merge as not done. -/
def rejectingHost : Host :=
  constHost (.ok []) (.error ⟨"unexpected EOF"⟩) (.ok ())
    (.ok ⟨some false, some "Pull Request is not mergeable"⟩)

/-- A title of 31 two-byte characters. -/
def accentedTitle : String := String.mk (List.replicate 31 'é')

/-! ## Theorems -/

/-! ### The line scanner reads the first word of the first line -/

open fmt cmd github

theorem isSpace_newline : isSpace '\n' = true := by decide
theorem isSpace_return : isSpace '\r' = true := by decide

theorem firstLine_cons_ne (r : Char) (rs : List Char) (h : r ≠ '\n') :
    firstLine (r :: rs) = r :: firstLine rs := by
  simp [firstLine, List.takeWhile_cons, h]

theorem firstLine_newline (rs : List Char) : firstLine ('\n' :: rs) = [] := by
  simp [firstLine, List.takeWhile_cons]

theorem firstWord_cons_space (r : Char) (l : List Char) (h : isSpace r = true) :
    firstWord (r :: l) = firstWord l := by
  simp [firstWord, List.dropWhile_cons, h]

theorem firstWord_cons_word (r : Char) (l : List Char) (h : isSpace r = false) :
    firstWord (r :: l) = (r :: l).takeWhile notSpace := by
  simp [firstWord, List.dropWhile_cons, h]

theorem takeWhile_notSpace_firstLine (l : List Char) :
    (firstLine l).takeWhile notSpace = l.takeWhile notSpace := by
  induction l with
  | nil => rfl
  | cons r rs ih =>
    by_cases h : r = '\n'
    · subst h
      rw [firstLine_newline]
      simp [List.takeWhile_cons, notSpace, isSpace_newline]
    · rw [firstLine_cons_ne r rs h]
      simp only [List.takeWhile_cons, ih]

theorem tokenLoop_fst (l : List Char) : (tokenLoop l).1 = l.takeWhile notSpace := by
  induction l with
  | nil => rfl
  | cons r rs ih =>
    unfold tokenLoop
    by_cases h : notSpace r = true
    · simp [h, ih, List.takeWhile_cons]
    · simp [h, List.takeWhile_cons]

theorem SkipSpace_word (r : Char) (rs : List Char) (h : isSpace r = false) :
    SkipSpace (r :: rs) = (none, r :: rs) := by
  have h1 : r ≠ '\r' := by
    intro e; rw [e, isSpace_return] at h; exact Bool.noConfusion h
  have h2 : r ≠ '\n' := by
    intro e; rw [e, isSpace_newline] at h; exact Bool.noConfusion h
  unfold SkipSpace
  simp [h1, h2, h]

theorem SkipSpace_spec (s : List Char) :
    (∃ e rest, SkipSpace s = (some e, rest) ∧ firstWord (firstLine s) = []) ∨
    (SkipSpace s = (none, []) ∧ firstWord (firstLine s) = []) ∨
    (∃ r rs, SkipSpace s = (none, r :: rs) ∧ isSpace r = false ∧
      firstWord (firstLine s) = (r :: rs).takeWhile notSpace) := by
  induction s with
  | nil => right; left; exact ⟨rfl, rfl⟩
  | cons r rs ih =>
    by_cases hn : r = '\n'
    · subst hn
      left
      refine ⟨"unexpected newline", rs, ?_, ?_⟩
      · unfold SkipSpace; simp
      · rw [firstLine_newline]; rfl
    · by_cases hs : isSpace r = true
      · have hstep : SkipSpace (r :: rs) = SkipSpace rs := by
          conv => lhs; unfold SkipSpace
          by_cases hr : r = '\r' ∧ peekNewline rs = true
          · simp [hr]
          · simp [hr, hn, hs]
        have hw : firstWord (firstLine (r :: rs)) = firstWord (firstLine rs) := by
          rw [firstLine_cons_ne r rs hn, firstWord_cons_space r _ hs]
        rw [hstep, hw]
        exact ih
      · have hs2 : isSpace r = false := by simpa using hs
        right; right
        refine ⟨r, rs, SkipSpace_word r rs hs2, hs2, ?_⟩
        rw [firstLine_cons_ne r rs hn, firstWord_cons_word r _ hs2,
          ← firstLine_cons_ne r rs hn, takeWhile_notSpace_firstLine]

theorem Scanln_response (stdin : List Char) :
    (Scanln stdin "").1 = String.mk (firstWord (firstLine stdin)) := by
  rcases SkipSpace_spec stdin with ⟨e, rest, h, hw⟩ | ⟨h, hw⟩ | ⟨r, rs, h, hs, hw⟩
  · simp [Scanln, h, hw]
  · simp [Scanln, h, hw]
  · simp [Scanln, h, hw, SkipSpace_word r rs hs, tokenLoop_fst]


/-! ### Merge -/

theorem commitMessage_opt (m : String) : (if m ≠ "" then m else "") = m := by
  by_cases h : m = ""
  · simp [h]
  · simp [h]

theorem MergePullRequest_log (c : Client) (owner repo : String) (number : Int)
    (message method : String) (log : List Request) :
    (c.MergePullRequest owner repo number message method log).2 =
      log ++ [Request.pullsMerge owner repo number "" ⟨message, method⟩] := by
  unfold Client.MergePullRequest
  simp only [commitMessage_opt, Host.PullRequestsMerge]
  cases c.host.pullsMerge owner repo number "" ⟨message, method⟩ with
  | error e => rfl
  | ok result => cases hm : result.GetMerged <;> simp [hm]

theorem doMerge_log (c : Client) (f : MergeFlags) (w : World) :
    (mergeCmd.doMerge c f w).2.log =
      w.log ++ [Request.pullsMerge f.mergeOwner f.mergeRepo f.mergePR ""
        ⟨f.mergeMessage, f.mergeMethod⟩] := by
  unfold mergeCmd.doMerge
  have h := MergePullRequest_log c f.mergeOwner f.mergeRepo f.mergePR f.mergeMessage
    f.mergeMethod w.log
  cases h1 : (c.MergePullRequest f.mergeOwner f.mergeRepo f.mergePR f.mergeMessage
    f.mergeMethod w.log).1 <;> simp [h1, h]

/-- C1 (as amended). With `yes = false`: whenever the first word of the first
input line (what `fmt.Scanln` stores into `response`) is neither `y` nor `Y`, the
merge command makes no merge request, returns no error, and prints the prompt
followed by the cancellation notice; and when the input line is `y`, exactly one
merge request is made, with the given owner, repository, number, message and
method. -/
theorem mergeCmd_confirmation (client : Client) (owner repo : String) (pr : Int)
    (message method : String) (w : World) :
    (firstWord (firstLine w.stdin) ≠ ['y'] → firstWord (firstLine w.stdin) ≠ ['Y'] →
      (mergeCmd.RunE client ⟨owner, repo, pr, method, message, false⟩ w).1 = none ∧
      (mergeCmd.RunE client ⟨owner, repo, pr, method, message, false⟩ w).2.log = w.log ∧
      (mergeCmd.RunE client ⟨owner, repo, pr, method, message, false⟩ w).2.out =
        w.out ++ [Out.stdout ("Are you sure you want to merge PR #" ++ fmtInt pr ++ "? [y/N]: "),
          Out.colored [Attribute.FgYellow] "Merge cancelled\n"]) ∧
    (∀ more : List Char, w.stdin = 'y' :: '\n' :: more →
      (mergeCmd.RunE client ⟨owner, repo, pr, method, message, false⟩ w).2.log =
        w.log ++ [Request.pullsMerge owner repo pr "" ⟨message, method⟩]) := by
  constructor
  · intro hy hY
    have h1 : (Scanln w.stdin "").1 ≠ "y" := by
      rw [Scanln_response]; intro e; exact hy (congrArg String.data e)
    have h2 : (Scanln w.stdin "").1 ≠ "Y" := by
      rw [Scanln_response]; intro e; exact hY (congrArg String.data e)
    simp [mergeCmd.RunE, h1, h2, colorPrint]
  · intro more hin
    have h1 : (Scanln w.stdin "").1 = "y" := by
      rw [Scanln_response, hin, firstLine_cons_ne _ _ (by decide), firstLine_newline]
      decide
    simp [mergeCmd.RunE, h1, doMerge_log]

/-- C1, at the input lines `no` and `y`. -/
theorem mergeCmd_confirmation_witness :
    (mergeCmd.RunE ⟨"t", demoHost⟩ ⟨"octo", "demo", 7, "merge", "", false⟩
        ⟨[], [], "no\n".data⟩).2.log = [] ∧
    (mergeCmd.RunE ⟨"t", demoHost⟩ ⟨"octo", "demo", 7, "merge", "", false⟩
        ⟨[], [], "y\n".data⟩).2.log = [Request.pullsMerge "octo" "demo" 7 "" ⟨"", "merge"⟩] :=
  ⟨((mergeCmd_confirmation ⟨"t", demoHost⟩ "octo" "demo" 7 "" "merge"
      ⟨[], [], "no\n".data⟩).1 (by decide) (by decide)).2.1,
   (mergeCmd_confirmation ⟨"t", demoHost⟩ "octo" "demo" 7 "" "merge"
      ⟨[], [], "y\n".data⟩).2 [] rfl⟩

/-- C1 as stated fails: the input line ` y` (a blank, then `y`) is not exactly
`y` or `Y`, and the merge request is made all the same, since the scanner skips
leading blanks. -/
theorem mergeCmd_confirmation_counterexample :
    " y".data ≠ "y".data ∧ " y".data ≠ "Y".data ∧
    (mergeCmd.RunE ⟨"t", demoHost⟩ ⟨"octo", "demo", 7, "merge", "", false⟩
        ⟨[], [], " y\n".data⟩).2.log = [Request.pullsMerge "octo" "demo" 7 "" ⟨"", "merge"⟩] := by
  decide

/-- C2. When the host answers the merge request with a result: if the result
reports the merge as not done, `MergePullRequest` returns an error whose message
is `failed to merge PR #<number>: <host message>`, so it contains the number and
the host's explanation; if the result reports the merge as done, it returns no
error. -/
theorem MergePullRequest_outcome (c : Client) (owner repo : String) (number : Int)
    (commitMessage mergeMethod : String) (log : List Request) (result : PullRequestMergeResult)
    (h : c.host.pullsMerge owner repo number "" ⟨commitMessage, mergeMethod⟩ = .ok result) :
    (result.GetMerged = false →
      ∃ err : Error,
        (c.MergePullRequest owner repo number commitMessage mergeMethod log).1 = some err ∧
        err.msg = "failed to merge PR #" ++ fmtInt number ++ ": " ++ result.GetMessage ∧
        (fmtInt number).data <:+: err.msg.data ∧
        result.GetMessage.data <:+: err.msg.data ∧
        err.wrapped = none) ∧
    (result.GetMerged = true →
      (c.MergePullRequest owner repo number commitMessage mergeMethod log).1 = none) := by
  constructor
  · intro hm
    refine ⟨⟨"failed to merge PR #" ++ fmtInt number ++ ": " ++ result.GetMessage, none⟩,
      ?_, rfl, ?_, ?_, rfl⟩
    · unfold Client.MergePullRequest
      simp only [commitMessage_opt, Host.PullRequestsMerge, h]
      simp [hm]
    · exact ⟨"failed to merge PR #".data, (": " ++ result.GetMessage).data, by simp⟩
    · exact ⟨("failed to merge PR #" ++ fmtInt number ++ ": ").data, [], by simp⟩
  · intro hm
    unfold Client.MergePullRequest
    simp only [commitMessage_opt, Host.PullRequestsMerge, h]
    simp [hm]

/-- C2, on a host that reports `Pull Request is not mergeable`. -/
theorem MergePullRequest_outcome_witness :
    (rejectingHost.pullsMerge "octo" "demo" 7 "" ⟨"", "squash"⟩ =
        .ok ⟨some false, some "Pull Request is not mergeable"⟩) ∧
    ∃ err : Error,
      (Client.MergePullRequest ⟨"t", rejectingHost⟩ "octo" "demo" 7 "" "squash" []).1 = some err ∧
      err.msg = "failed to merge PR #7: Pull Request is not mergeable" :=
  ⟨rfl,
   match (MergePullRequest_outcome ⟨"t", rejectingHost⟩ "octo" "demo" 7 "" "squash" []
      ⟨some false, some "Pull Request is not mergeable"⟩ rfl).1 rfl with
   | ⟨err, h1, h2, _⟩ => ⟨err, h1, h2.trans (by decide)⟩⟩

/-- C4. The one request `ApprovePullRequest` makes is a review with event
`APPROVE`, whose body is `Approved via pr-manager CLI` when the given message is
empty and the given message itself otherwise. -/
theorem ApprovePullRequest_review (c : Client) (owner repo : String) (number : Int)
    (message : String) (log : List Request) :
    ∃ review : PullRequestReviewRequest,
      (c.ApprovePullRequest owner repo number message log).2 =
        log ++ [Request.pullsCreateReview owner repo number review] ∧
      review.Event = "APPROVE" ∧
      (message = "" → review.Body = "Approved via pr-manager CLI") ∧
      (message ≠ "" → review.Body = message) := by
  by_cases hm : message = ""
  · refine ⟨⟨"Approved via pr-manager CLI", "APPROVE"⟩, ?_, rfl, fun _ => rfl,
      fun h => absurd hm h⟩
    unfold Client.ApprovePullRequest Host.PullRequestsCreateReview
    simp only [hm, if_true]
    cases c.host.pullsCreateReview owner repo number ⟨"Approved via pr-manager CLI", "APPROVE"⟩ <;>
      rfl
  · refine ⟨⟨message, "APPROVE"⟩, ?_, rfl, fun h => absurd h hm, fun _ => rfl⟩
    unfold Client.ApprovePullRequest Host.PullRequestsCreateReview
    simp only [hm, if_false]
    cases c.host.pullsCreateReview owner repo number ⟨message, "APPROVE"⟩ <;> rfl

/-- C4, at the empty message and at the message `LGTM`. -/
theorem ApprovePullRequest_review_witness :
    (Client.ApprovePullRequest ⟨"t", demoHost⟩ "octo" "demo" 7 "" []).2 =
      [Request.pullsCreateReview "octo" "demo" 7 ⟨"Approved via pr-manager CLI", "APPROVE"⟩] ∧
    (Client.ApprovePullRequest ⟨"t", demoHost⟩ "octo" "demo" 7 "LGTM" []).2 =
      [Request.pullsCreateReview "octo" "demo" 7 ⟨"LGTM", "APPROVE"⟩] :=
  ⟨match ApprovePullRequest_review ⟨"t", demoHost⟩ "octo" "demo" 7 "" [] with
   | ⟨⟨body, event⟩, h1, h2, h3, _⟩ => by
     have hb : body = "Approved via pr-manager CLI" := h3 rfl
     have he : event = "APPROVE" := h2
     rw [h1, hb, he]; rfl,
   match ApprovePullRequest_review ⟨"t", demoHost⟩ "octo" "demo" 7 "LGTM" [] with
   | ⟨⟨body, event⟩, h1, h2, _, h4⟩ => by
     have hb : body = "LGTM" := h4 (by decide)
     have he : event = "APPROVE" := h2
     rw [h1, hb, he]; rfl⟩

/-- C7. `NewClient` fails exactly when both the token argument and the
`GITHUB_TOKEN` variable are empty, and then with the missing-token error; a
non-empty token argument is the credential whatever the variable holds, and an
empty one makes the variable's value the credential. -/
theorem NewClient_token (env : Env) (host : Host) (token : String) :
    ((∃ e : Error, NewClient env host token = .error e) ↔
      (token = "" ∧ Getenv env "GITHUB_TOKEN" = "")) ∧
    (token = "" → Getenv env "GITHUB_TOKEN" = "" →
      NewClient env host token = .error
        ⟨"GitHub token is required. Set GITHUB_TOKEN environment variable or pass token parameter",
          none⟩) ∧
    (token ≠ "" → NewClient env host token = .ok ⟨token, host⟩) ∧
    (token = "" → Getenv env "GITHUB_TOKEN" ≠ "" →
      NewClient env host token = .ok ⟨Getenv env "GITHUB_TOKEN", host⟩) := by
  by_cases ht : token = ""
  · by_cases he : Getenv env "GITHUB_TOKEN" = ""
    · simp [NewClient, ht, he]
    · simp [NewClient, ht, he]
  · simp [NewClient, ht]

/-- C7, with the variable unset or set, and the argument empty or not. -/
theorem NewClient_token_witness :
    NewClient (fun _ => none) demoHost "" = .error
        ⟨"GitHub token is required. Set GITHUB_TOKEN environment variable or pass token parameter",
          none⟩ ∧
    NewClient (fun _ => some "env-token") demoHost "flag-token" = .ok ⟨"flag-token", demoHost⟩ ∧
    NewClient (fun _ => some "env-token") demoHost "" = .ok ⟨"env-token", demoHost⟩ :=
  ⟨(NewClient_token (fun _ => none) demoHost "").2.1 rfl rfl,
   (NewClient_token (fun _ => some "env-token") demoHost "flag-token").2.2.1 (by decide),
   (NewClient_token (fun _ => some "env-token") demoHost "").2.2.2 rfl (by decide)⟩


theorem appendEntries_eq (prs : List PullRequest) (pulls : List GhPullRequest) :
    appendEntries prs pulls = prs ++ pulls.map listEntry := by
  induction pulls generalizing prs with
  | nil => simp [appendEntries]
  | cons pr rest ih => simp [appendEntries, ih]

theorem ListPullRequests_ok (c : Client) (owner repo state : String) (limit : Int)
    (log : List Request) (pulls : List GhPullRequest)
    (h : c.host.pullsList owner repo ⟨state, "created", "desc", limit⟩ = .ok pulls) :
    (c.ListPullRequests owner repo state limit log).1 = .ok (pulls.map listEntry) := by
  simp [Client.ListPullRequests, Host.PullRequestsList, h, appendEntries_eq]

theorem ListPullRequests_error (c : Client) (owner repo state : String) (limit : Int)
    (log : List Request) (e : HostError)
    (h : c.host.pullsList owner repo ⟨state, "created", "desc", limit⟩ = .error e) :
    (c.ListPullRequests owner repo state limit log).1 =
      .error ⟨"error listing pull requests: " ++ e.msg, some e⟩ := by
  simp [Client.ListPullRequests, Host.PullRequestsList, h, errorfW]

theorem ListPullRequests_log (c : Client) (owner repo state : String) (limit : Int)
    (log : List Request) :
    (c.ListPullRequests owner repo state limit log).2 =
      log ++ [Request.pullsList owner repo ⟨state, "created", "desc", limit⟩] := by
  cases h : c.host.pullsList owner repo ⟨state, "created", "desc", limit⟩ <;>
    simp [Client.ListPullRequests, Host.PullRequestsList, h]

/-- On a successful response `ListPullRequests` returns one summary per pull
request of the response, in the same order and of the same length, after one
list call made with page size `limit`; nothing is cut off on this side, so the
result has at most `limit` entries only when the response has. -/
theorem ListPullRequests_order_length (c : Client) (owner repo state : String) (limit : Int)
    (log : List Request) (pulls : List GhPullRequest)
    (h : c.host.pullsList owner repo ⟨state, "created", "desc", limit⟩ = .ok pulls) :
    (c.ListPullRequests owner repo state limit log).2 =
      log ++ [Request.pullsList owner repo ⟨state, "created", "desc", limit⟩] ∧
    ∃ prs : List PullRequest,
      (c.ListPullRequests owner repo state limit log).1 = .ok prs ∧
      prs = pulls.map listEntry ∧
      prs.length = pulls.length ∧
      ((pulls.length : Int) ≤ limit → (prs.length : Int) ≤ limit) := by
  refine ⟨ListPullRequests_log c owner repo state limit log, pulls.map listEntry,
    ListPullRequests_ok c owner repo state limit log pulls h, rfl, by simp, ?_⟩
  intro hl
  simpa using hl

/-- The order and length of the result at a response of three pull requests and
limit 5. -/
theorem ListPullRequests_order_length_witness :
    ∃ prs : List PullRequest,
      (Client.ListPullRequests ⟨"t", threePullHost⟩ "octo" "demo" "open" 5 []).1 = .ok prs ∧
      prs.map (fun p => p.Number) = [3, 2, 1] ∧ (prs.length : Int) ≤ 5 :=
  match (ListPullRequests_order_length ⟨"t", threePullHost⟩ "octo" "demo" "open" 5 []
      [samplePull 3 "Third" none, samplePull 2 "Second" none, samplePull 1 "First" none] rfl).2 with
  | ⟨prs, h1, h2, _, h4⟩ => ⟨prs, h1, by rw [h2]; decide, h4 (by decide)⟩

/-- C8 (as amended). When the list request fails with error `e`,
`ListPullRequests` returns an error that wraps `e` and whose message is
`error listing pull requests: ` followed by the message of `e`; nothing else is
added to it. -/
theorem ListPullRequests_wraps (c : Client) (owner repo state : String) (limit : Int)
    (log : List Request) (e : HostError)
    (h : c.host.pullsList owner repo ⟨state, "created", "desc", limit⟩ = .error e) :
    ∃ err : Error,
      (c.ListPullRequests owner repo state limit log).1 = .error err ∧
      err.wrapped = some e ∧
      err.msg = "error listing pull requests: " ++ e.msg ∧
      e.msg.data <:+ err.msg.data :=
  ⟨⟨"error listing pull requests: " ++ e.msg, some e⟩,
    ListPullRequests_error c owner repo state limit log e h, rfl, rfl,
    ⟨"error listing pull requests: ".data, by simp⟩⟩

/-- C8 (as amended), on a host that fails with `unexpected EOF`. -/
theorem ListPullRequests_wraps_witness :
    ∃ err : Error,
      (Client.ListPullRequests ⟨"t", failingHost⟩ "octo" "demo" "open" 10 []).1 = .error err ∧
      err.msg = "error listing pull requests: unexpected EOF" :=
  match ListPullRequests_wraps ⟨"t", failingHost⟩ "octo" "demo" "open" 10 [] ⟨"unexpected EOF"⟩ rfl with
  | ⟨err, h1, _, h3, _⟩ => ⟨err, h1, h3.trans (by decide)⟩

/-- C8 as stated fails: for owner `octo` and repository `demo`, on a host that
fails with `unexpected EOF`, the message of the returned error contains neither name. -/
theorem ListPullRequests_context_counterexample :
    (Client.ListPullRequests ⟨"t", failingHost⟩ "octo" "demo" "open" 10 []).1 =
      .error ⟨"error listing pull requests: unexpected EOF", some ⟨"unexpected EOF"⟩⟩ ∧
    ¬ ("octo".data <:+: "error listing pull requests: unexpected EOF".data) ∧
    ¬ ("demo".data <:+: "error listing pull requests: unexpected EOF".data) :=
  ⟨rfl, by decide, by decide⟩


theorem suffix_errorfW (pre : String) (e : HostError) :
    e.msg.data <:+ (errorfW pre e).msg.data :=
  ⟨pre.data, by simp [errorfW]⟩

theorem GetPullRequest_log (c : Client) (owner repo : String) (number : Int)
    (log : List Request) :
    (c.GetPullRequest owner repo number log).2 = log ++ [Request.pullsGet owner repo number] := by
  cases h : c.host.pullsGet owner repo number <;>
    simp [Client.GetPullRequest, Host.PullRequestsGet, h]

theorem GetPullRequest_error (c : Client) (owner repo : String) (number : Int)
    (log : List Request) (e : HostError) (h : c.host.pullsGet owner repo number = .error e) :
    (c.GetPullRequest owner repo number log).1 =
      .error (errorfW ("error getting pull request #" ++ fmtInt number ++ ": ") e) := by
  simp [Client.GetPullRequest, Host.PullRequestsGet, h]

theorem AddComment_log (c : Client) (owner repo : String) (number : Int) (comment : String)
    (log : List Request) :
    (c.AddComment owner repo number comment log).2 =
      log ++ [Request.issuesCreateComment owner repo number ⟨comment⟩] := by
  cases h : c.host.issuesCreateComment owner repo number ⟨comment⟩ <;>
    simp [Client.AddComment, Host.IssuesCreateComment, h]

theorem AddComment_error (c : Client) (owner repo : String) (number : Int) (comment : String)
    (log : List Request) (e : HostError)
    (h : c.host.issuesCreateComment owner repo number ⟨comment⟩ = .error e) :
    (c.AddComment owner repo number comment log).1 =
      some (errorfW ("error adding comment to PR #" ++ fmtInt number ++ ": ") e) := by
  simp [Client.AddComment, Host.IssuesCreateComment, h]

theorem ApprovePullRequest_log (c : Client) (owner repo : String) (number : Int)
    (comment : String) (log : List Request) :
    (c.ApprovePullRequest owner repo number comment log).2 =
      log ++ [Request.pullsCreateReview owner repo number
        ⟨if comment = "" then "Approved via pr-manager CLI" else comment, "APPROVE"⟩] := by
  cases h : c.host.pullsCreateReview owner repo number
      ⟨if comment = "" then "Approved via pr-manager CLI" else comment, "APPROVE"⟩ <;>
    simp [Client.ApprovePullRequest, Host.PullRequestsCreateReview, h]

theorem ApprovePullRequest_error (c : Client) (owner repo : String) (number : Int)
    (comment : String) (log : List Request) (e : HostError)
    (h : c.host.pullsCreateReview owner repo number
      ⟨if comment = "" then "Approved via pr-manager CLI" else comment, "APPROVE"⟩ = .error e) :
    (c.ApprovePullRequest owner repo number comment log).1 =
      some (errorfW ("error approving PR #" ++ fmtInt number ++ ": ") e) := by
  simp [Client.ApprovePullRequest, Host.PullRequestsCreateReview, h]

theorem RequestChanges_log (c : Client) (owner repo : String) (number : Int)
    (comment : String) (log : List Request) :
    (c.RequestChanges owner repo number comment log).2 =
      log ++ [Request.pullsCreateReview owner repo number ⟨comment, "REQUEST_CHANGES"⟩] := by
  cases h : c.host.pullsCreateReview owner repo number ⟨comment, "REQUEST_CHANGES"⟩ <;>
    simp [Client.RequestChanges, Host.PullRequestsCreateReview, h]

theorem RequestChanges_error (c : Client) (owner repo : String) (number : Int)
    (comment : String) (log : List Request) (e : HostError)
    (h : c.host.pullsCreateReview owner repo number ⟨comment, "REQUEST_CHANGES"⟩ = .error e) :
    (c.RequestChanges owner repo number comment log).1 =
      some (errorfW ("error requesting changes on PR #" ++ fmtInt number ++ ": ") e) := by
  simp [Client.RequestChanges, Host.PullRequestsCreateReview, h]

theorem MergePullRequest_error (c : Client) (owner repo : String) (number : Int)
    (message method : String) (log : List Request) (e : HostError)
    (h : c.host.pullsMerge owner repo number "" ⟨message, method⟩ = .error e) :
    (c.MergePullRequest owner repo number message method log).1 =
      some (errorfW ("error merging PR #" ++ fmtInt number ++ ": ") e) := by
  unfold Client.MergePullRequest
  simp only [commitMessage_opt, Host.PullRequestsMerge, h]

/-- C9. Each of the six client operations appends exactly one request to the
log, and when the host fails that request with error `e` the operation returns
an error whose message ends with the message of `e`. -/
theorem client_one_request_no_retry (c : Client) (owner repo : String) (number : Int)
    (state text method : String) (limit : Int) (log : List Request) :
    ((c.ListPullRequests owner repo state limit log).2 =
        log ++ [Request.pullsList owner repo ⟨state, "created", "desc", limit⟩] ∧
      ∀ e : HostError,
        c.host.pullsList owner repo ⟨state, "created", "desc", limit⟩ = .error e →
        ∃ err : Error, (c.ListPullRequests owner repo state limit log).1 = .error err ∧
          e.msg.data <:+ err.msg.data) ∧
    ((c.GetPullRequest owner repo number log).2 = log ++ [Request.pullsGet owner repo number] ∧
      ∀ e : HostError,
        c.host.pullsGet owner repo number = .error e →
        ∃ err : Error, (c.GetPullRequest owner repo number log).1 = .error err ∧
          e.msg.data <:+ err.msg.data) ∧
    ((c.AddComment owner repo number text log).2 =
        log ++ [Request.issuesCreateComment owner repo number ⟨text⟩] ∧
      ∀ e : HostError,
        c.host.issuesCreateComment owner repo number ⟨text⟩ = .error e →
        ∃ err : Error, (c.AddComment owner repo number text log).1 = some err ∧
          e.msg.data <:+ err.msg.data) ∧
    ((c.ApprovePullRequest owner repo number text log).2 =
        log ++ [Request.pullsCreateReview owner repo number
          ⟨if text = "" then "Approved via pr-manager CLI" else text, "APPROVE"⟩] ∧
      ∀ e : HostError,
        c.host.pullsCreateReview owner repo number
          ⟨if text = "" then "Approved via pr-manager CLI" else text, "APPROVE"⟩ = .error e →
        ∃ err : Error, (c.ApprovePullRequest owner repo number text log).1 = some err ∧
          e.msg.data <:+ err.msg.data) ∧
    ((c.RequestChanges owner repo number text log).2 =
        log ++ [Request.pullsCreateReview owner repo number ⟨text, "REQUEST_CHANGES"⟩] ∧
      ∀ e : HostError,
        c.host.pullsCreateReview owner repo number ⟨text, "REQUEST_CHANGES"⟩ = .error e →
        ∃ err : Error, (c.RequestChanges owner repo number text log).1 = some err ∧
          e.msg.data <:+ err.msg.data) ∧
    ((c.MergePullRequest owner repo number text method log).2 =
        log ++ [Request.pullsMerge owner repo number "" ⟨text, method⟩] ∧
      ∀ e : HostError,
        c.host.pullsMerge owner repo number "" ⟨text, method⟩ = .error e →
        ∃ err : Error, (c.MergePullRequest owner repo number text method log).1 = some err ∧
          e.msg.data <:+ err.msg.data) :=
  ⟨⟨ListPullRequests_log c owner repo state limit log, fun e h =>
      ⟨_, (ListPullRequests_error c owner repo state limit log e h),
        ⟨"error listing pull requests: ".data, by simp⟩⟩⟩,
   ⟨GetPullRequest_log c owner repo number log, fun e h =>
      ⟨_, GetPullRequest_error c owner repo number log e h, suffix_errorfW _ e⟩⟩,
   ⟨AddComment_log c owner repo number text log, fun e h =>
      ⟨_, AddComment_error c owner repo number text log e h, suffix_errorfW _ e⟩⟩,
   ⟨ApprovePullRequest_log c owner repo number text log, fun e h =>
      ⟨_, ApprovePullRequest_error c owner repo number text log e h, suffix_errorfW _ e⟩⟩,
   ⟨RequestChanges_log c owner repo number text log, fun e h =>
      ⟨_, RequestChanges_error c owner repo number text log e h, suffix_errorfW _ e⟩⟩,
   ⟨MergePullRequest_log c owner repo number text method log, fun e h =>
      ⟨_, MergePullRequest_error c owner repo number text method log e h, suffix_errorfW _ e⟩⟩⟩

/-- C9, on a host that fails every request. -/
theorem client_one_request_no_retry_witness :
    (Client.GetPullRequest ⟨"t", failingHost⟩ "octo" "demo" 7 []).2 =
      [Request.pullsGet "octo" "demo" 7] ∧
    ∃ err : Error, (Client.MergePullRequest ⟨"t", failingHost⟩ "octo" "demo" 7 "" "merge" []).1 =
      some err ∧ "unexpected EOF".data <:+ err.msg.data :=
  ⟨(client_one_request_no_retry ⟨"t", failingHost⟩ "octo" "demo" 7 "open" "" "merge" 10 []).2.1.1,
   (client_one_request_no_retry ⟨"t", failingHost⟩ "octo" "demo" 7 "open" "" "merge" 10
      []).2.2.2.2.2.2 ⟨"unexpected EOF"⟩ rfl⟩

/-! ### List rendering -/

theorem goBytes_append (s t : String) : goBytes (s ++ t) = goBytes s ++ goBytes t := by
  simp [goBytes, List.flatMap_append]

theorem goBytes_ascii (l : List Char) (h : ∀ c ∈ l, c.toNat ≤ 0x7F) :
    goBytes (String.mk l) = l.map Char.toNat := by
  induction l with
  | nil => rfl
  | cons c cs ih =>
    have hc : c.toNat ≤ 0x7F := h c (List.mem_cons_self c cs)
    have ih2 := ih (fun d hd => h d (List.mem_cons_of_mem c hd))
    simp only [goBytes] at ih2 ⊢
    simp [List.flatMap_cons, utf8EncodeRune, hc, ih2]

/-- The list rendering measures and cuts titles in bytes: a
title of more than 60 bytes is rendered as its first 57 bytes followed by `...`,
a title of at most 60 bytes is rendered unchanged; for a title of one-byte
characters only this is the first 57 characters followed by `...` when it has
more than 60 characters, and the title unchanged otherwise. -/
theorem truncateTitle_bytes (title : String) :
    ((goBytes title).length > 60 →
      truncateTitle (goBytes title) = (goBytes title).take 57 ++ goBytes "...") ∧
    ((goBytes title).length ≤ 60 → truncateTitle (goBytes title) = goBytes title) ∧
    ((∀ c ∈ title.data, c.toNat ≤ 0x7F) →
      (title.length > 60 →
        truncateTitle (goBytes title) = goBytes (String.mk (title.data.take 57) ++ "...")) ∧
      (title.length ≤ 60 → truncateTitle (goBytes title) = goBytes title)) := by
  refine ⟨fun h => by simp [truncateTitle, h], fun h => ?_, fun hascii => ?_⟩
  · have : ¬ (goBytes title).length > 60 := by omega
    simp [truncateTitle, this]
  · have hb : goBytes title = title.data.map Char.toNat := goBytes_ascii title.data hascii
    have hl : (goBytes title).length = title.length := by
      rw [hb, List.length_map]; rfl
    constructor
    · intro h
      have h57 : ∀ c ∈ title.data.take 57, c.toNat ≤ 0x7F :=
        fun c hc => hascii c (List.mem_of_mem_take hc)
      have hg : (goBytes title).length > 60 := by omega
      rw [goBytes_append, goBytes_ascii _ h57]
      simp only [truncateTitle, hg, if_true]
      rw [hb, List.map_take]
    · intro h
      have : ¬ (goBytes title).length > 60 := by omega
      simp [truncateTitle, this]

/-- The byte-wise truncation at a title of 65 one-byte characters. -/
theorem truncateTitle_bytes_witness :
    truncateTitle (goBytes "Fix the flaky integration test that fails on slow CI runners only") =
      goBytes "Fix the flaky integration test that fails on slow CI runn..." :=
  (((truncateTitle_bytes "Fix the flaky integration test that fails on slow CI runners only").2.2
    (by decide)).1 (by decide)).trans (by decide)

/-- C3, the list rendering at a title of 31 characters, each two bytes long: the
title has at most 60 characters and yet is not rendered unchanged; it is cut
after 57 bytes, in the middle of its 29th character, and `...` is appended. -/
theorem truncateTitle_multibyte_title :
    accentedTitle.length = 31 ∧ accentedTitle.length ≤ 60 ∧
    (goBytes accentedTitle).length = 62 ∧
    truncateTitle (goBytes accentedTitle) ≠ goBytes accentedTitle ∧
    truncateTitle (goBytes accentedTitle) =
      (goBytes (String.mk (List.replicate 28 'é'))) ++ [0xC3] ++ goBytes "..." := by
  decide

/-! ### Show and list commands -/

theorem GetPullRequest_mergeable (c : Client) (owner repo : String) (number : Int)
    (log : List Request) (pr : GhPullRequest) (h : c.host.pullsGet owner repo number = .ok pr) :
    ∃ d : PullRequest, (c.GetPullRequest owner repo number log).1 = .ok d ∧
      d.Mergeable = pr.Mergeable ∧ d.MergeableState = pr.GetMergeableState := by
  simp [Client.GetPullRequest, Host.PullRequestsGet, h]

theorem showCmd_mergeable_line (client : Client) (f : ShowFlags) (w : World) (d : PullRequest)
    (h : (client.GetPullRequest f.showOwner f.showRepo f.showPR w.log).1 = .ok d) :
    (showCmd.RunE client f w).1 = none ∧
    Out.stdout ("\nMergeable: " ++ mergeableStr d.Mergeable ++ " (" ++ d.MergeableState ++ ")\n") ∈
      (showCmd.RunE client f w).2.out := by
  unfold showCmd.RunE
  simp only [h]
  by_cases hb : d.Body ≠ ""
  · simp [hb]
  · simp [hb]

/-- C6. When the host answers the get request with a pull request,
`GetPullRequest` carries its mergeable value through unchanged, and the show
command prints the mergeable line with `true`, `false` or `unknown` according as
the host value is true, false or absent. -/
theorem showCmd_mergeable (client : Client) (f : ShowFlags) (w : World) (pr : GhPullRequest)
    (h : client.host.pullsGet f.showOwner f.showRepo f.showPR = .ok pr) :
    (∃ d : PullRequest,
      (client.GetPullRequest f.showOwner f.showRepo f.showPR w.log).1 = .ok d ∧
      d.Mergeable = pr.Mergeable) ∧
    (showCmd.RunE client f w).1 = none ∧
    (pr.Mergeable = some true →
      Out.stdout ("\nMergeable: " ++ "true" ++ " (" ++ pr.GetMergeableState ++ ")\n") ∈
        (showCmd.RunE client f w).2.out) ∧
    (pr.Mergeable = some false →
      Out.stdout ("\nMergeable: " ++ "false" ++ " (" ++ pr.GetMergeableState ++ ")\n") ∈
        (showCmd.RunE client f w).2.out) ∧
    (pr.Mergeable = none →
      Out.stdout ("\nMergeable: " ++ "unknown" ++ " (" ++ pr.GetMergeableState ++ ")\n") ∈
        (showCmd.RunE client f w).2.out) := by
  obtain ⟨d, hd, hm, hs⟩ := GetPullRequest_mergeable client f.showOwner f.showRepo f.showPR
    w.log pr h
  have hline := showCmd_mergeable_line client f w d hd
  rw [hm, hs] at hline
  refine ⟨⟨d, hd, hm⟩, hline.1, ?_, ?_, ?_⟩
  · intro ht; have := hline.2; rw [ht] at this; exact this
  · intro ht; have := hline.2; rw [ht] at this; exact this
  · intro ht; have := hline.2; rw [ht] at this; exact this

/-- C6, at a pull request whose mergeable value is absent. -/
theorem showCmd_mergeable_witness :
    Out.stdout "\nMergeable: unknown (clean)\n" ∈
      (showCmd.RunE ⟨"t", demoHost⟩ ⟨"octo", "demo", 7⟩ ⟨[], [], []⟩).2.out :=
  (showCmd_mergeable ⟨"t", demoHost⟩ ⟨"octo", "demo", 7⟩ ⟨[], [], []⟩
    (samplePull 7 "Add cache" none) rfl).2.2.2.2 rfl

theorem listRows_eq (out : List Out) (prs : List PullRequest) :
    listRows out prs = out ++ prs.map (fun pr => Out.tabwrite (rowBytes pr)) := by
  induction prs generalizing out with
  | nil => simp [listRows]
  | cons pr rest ih => simp [listRows, ih]

/-- The output of the list command when `ListPullRequests` succeeds, with the
rows given by `rowBytes`. -/
theorem listCmd_output_rows (client : Client) (f : ListFlags) (w : World)
    (prs : List PullRequest)
    (h : (client.ListPullRequests f.listOwner f.listRepo f.listState f.listLimit w.log).1 =
      .ok prs) :
    (listCmd.RunE client f w).1 = none ∧
    (prs.length = 0 →
      (listCmd.RunE client f w).2.out = w.out ++ [Out.colored [Attribute.FgYellow]
        ("No " ++ f.listState ++ " pull requests found in " ++ f.listOwner ++ "/" ++
          f.listRepo ++ "\n")]) ∧
    (prs.length > 0 →
      (listCmd.RunE client f w).2.out = w.out ++
        [Out.colored [Attribute.FgCyan, Attribute.Bold]
          ("\nPull Requests in " ++ f.listOwner ++ "/" ++ f.listRepo ++ " (" ++ f.listState ++
            ")\n\n"),
         Out.tabwrite (goBytes "#\tTitle\tAuthor\tState\tDraft\tUpdated\n"),
         Out.tabwrite (goBytes "─\t─────\t──────\t─────\t─────\t───────\n")] ++
        prs.map (fun pr => Out.tabwrite (rowBytes pr)) ++
        [Out.tabflush,
         Out.colored [Attribute.Faint]
          ("\nTotal: " ++ fmtInt prs.length ++ " pull request(s)\n\n")]) := by
  unfold listCmd.RunE
  simp only [h]
  by_cases hz : prs.length = 0
  · simp [hz, colorPrint]
  · simp [hz, listRows_eq]

/-- Text followed by a newline ends, as bytes, with the byte 10. -/
theorem goBytes_line (s : String) : goBytes (s ++ "\n") = goBytes s ++ [10] := by
  rw [goBytes_append]; rfl

/-- Every row written by the list loop ends with the newline byte. -/
theorem rowBytes_getLast (pr : PullRequest) : (rowBytes pr).getLast? = some 10 := by
  unfold rowBytes
  simp only [goBytes_line, ← List.append_assoc]
  exact List.getLast?_concat _

/-- C10. When `ListPullRequests` succeeds, the list command returns no error.
With zero pull requests it prints only the notice naming the state, owner and
repository: no heading, no table line, no total. With `n > 0` pull requests it
prints the heading, the two table header lines, then exactly `n` rows, one per
pull request and in their order, then flushes the table and prints the total
line with the count `n`. The row of a pull request is its number, its title
(cut to 57 bytes and `...` when longer than 60 bytes), its author, the state
icon and state, the draft mark and the update time, separated by tabs and ended
by a newline. -/
theorem listCmd_output (client : Client) (f : ListFlags) (w : World) (prs : List PullRequest)
    (h : (client.ListPullRequests f.listOwner f.listRepo f.listState f.listLimit w.log).1 =
      .ok prs) :
    (listCmd.RunE client f w).1 = none ∧
    (prs.length = 0 →
      (listCmd.RunE client f w).2.out = w.out ++ [Out.colored [Attribute.FgYellow]
        ("No " ++ f.listState ++ " pull requests found in " ++ f.listOwner ++ "/" ++
          f.listRepo ++ "\n")]) ∧
    (prs.length > 0 →
      ∃ rows : List (List Nat),
        (listCmd.RunE client f w).2.out = w.out ++
          [Out.colored [Attribute.FgCyan, Attribute.Bold]
            ("\nPull Requests in " ++ f.listOwner ++ "/" ++ f.listRepo ++ " (" ++
              f.listState ++ ")\n\n"),
           Out.tabwrite (goBytes "#\tTitle\tAuthor\tState\tDraft\tUpdated\n"),
           Out.tabwrite (goBytes "─\t─────\t──────\t─────\t─────\t───────\n")] ++
          rows.map Out.tabwrite ++
          [Out.tabflush,
           Out.colored [Attribute.Faint]
            ("\nTotal: " ++ fmtInt prs.length ++ " pull request(s)\n\n")] ∧
        rows.length = prs.length ∧
        rows = prs.map (fun pr =>
          goBytes (fmtInt pr.Number ++ "\t") ++
          (if (goBytes pr.Title).length > 60 then (goBytes pr.Title).take 57 ++ [46, 46, 46]
            else goBytes pr.Title) ++
          goBytes ("\t" ++ pr.Author ++ "\t" ++ (if pr.State ≠ "open" then "🔴" else "🟢") ++
            " " ++ pr.State ++ "\t" ++ (if pr.Draft then "✓" else "") ++ "\t" ++
            pr.UpdatedAt ++ "\n")) ∧
        (∀ row ∈ rows, row.getLast? = some 10)) := by
  have h0 := listCmd_output_rows client f w prs h
  refine ⟨h0.1, h0.2.1, fun hp => ⟨prs.map rowBytes, ?_, by simp, rfl, ?_⟩⟩
  · rw [h0.2.2 hp, List.map_map]
    rfl
  · intro row hrow
    obtain ⟨pr, _, hpr⟩ := List.mem_map.mp hrow
    rw [← hpr]
    exact rowBytes_getLast pr

/-- C10, on a host with no pull request and on a host with three: the notice
alone in the first case; heading, header lines, three rows and the total line
with 3 in the second, the first row spelled out byte by byte. -/
theorem listCmd_output_witness :
    (listCmd.RunE ⟨"t", demoHost⟩ ⟨"octo", "demo", "open", 10⟩ ⟨[], [], []⟩).2.out =
      [Out.colored [Attribute.FgYellow] "No open pull requests found in octo/demo\n"] ∧
    (listCmd.RunE ⟨"t", threePullHost⟩ ⟨"octo", "demo", "open", 10⟩ ⟨[], [], []⟩).2.out =
      [Out.colored [Attribute.FgCyan, Attribute.Bold] "\nPull Requests in octo/demo (open)\n\n",
       Out.tabwrite (goBytes "#\tTitle\tAuthor\tState\tDraft\tUpdated\n"),
       Out.tabwrite (goBytes "─\t─────\t──────\t─────\t─────\t───────\n"),
       Out.tabwrite [51, 9, 84, 104, 105, 114, 100, 9, 97, 108, 105, 99, 101, 9, 240, 159, 159,
         162, 32, 111, 112, 101, 110, 9, 9, 50, 48, 50, 52, 45, 48, 53, 45, 49, 56, 32, 49, 54,
         58, 48, 52, 58, 53, 57, 10],
       Out.tabwrite (goBytes "2\tSecond\talice\t🟢 open\t\t2024-05-18 16:04:59\n"),
       Out.tabwrite (goBytes "1\tFirst\talice\t🟢 open\t\t2024-05-18 16:04:59\n"),
       Out.tabflush,
       Out.colored [Attribute.Faint] "\nTotal: 3 pull request(s)\n\n"] :=
  ⟨((listCmd_output ⟨"t", demoHost⟩ ⟨"octo", "demo", "open", 10⟩ ⟨[], [], []⟩ [] rfl).2.1
      rfl).trans (by decide),
   match (listCmd_output ⟨"t", threePullHost⟩ ⟨"octo", "demo", "open", 10⟩ ⟨[], [], []⟩
      ([samplePull 3 "Third" none, samplePull 2 "Second" none, samplePull 1 "First" none].map
        listEntry) rfl).2.2 (by decide) with
   | ⟨rows, hout, _, hrows, _⟩ => by
     rw [hout, hrows]
     decide⟩

end PrManager
